import Mathlib

/-
Formal model of the chain-reaction game session server in src/main.py.

The board is a 5x5 grid of cells; a cell is either empty (the Python dict
has no keys) or owned with a positive count (dict with "owner" and "count"
keys).  All code paths write cells only as the empty dict or as a dict with
both keys, so a cell is modelled as an Option of owner-and-count.

Coordinates mirror the Python access pattern grid[y][x]: a Grid is a
function of y then x, and a position is a pair (x, y) as in the tuples
the source builds.
-/

set_option maxRecDepth 4000

inductive Role where
  | RED
  | BLUE
deriving DecidableEq, Repr

/-- Python: "BLUE" if player == "RED" else "RED". -/
def Role.other : Role → Role
  | .RED => .BLUE
  | .BLUE => .RED

abbrev Cell := Option (Role × Nat)

/-- Python: cell.get("count", 0). -/
def cellCount : Cell → Nat
  | none => 0
  | some c => c.2

/-- Python: cell.get("owner"). -/
def cellOwner : Cell → Option Role
  | none => none
  | some c => some c.1

abbrev Grid := Fin 5 → Fin 5 → Cell

/-- A board position, written (x, y) as in the tuples built by the source. -/
abbrev Pos := Fin 5 × Fin 5

/-- Python: grid[y][x], for p = (x, y). -/
def cellGet (g : Grid) (p : Pos) : Cell := g p.2 p.1

/-- Python: new_empty_grid(), a 5x5 grid of empty dicts. -/
def new_empty_grid : Grid := fun _ _ => none

/-- Python: grid[y][x] = c. -/
def setCell (g : Grid) (y x : Fin 5) (c : Cell) : Grid :=
  fun y' x' => if y' = y ∧ x' = x then c else g y' x'

/-- Python get_neighbors(x, y, w, h) with w = h = 5: the in-bounds
orthogonal neighbours, in source order left, right, up, down. -/
def get_neighbors (x y : Fin 5) : List Pos :=
  (if h : 0 < x.val then [(⟨x.val - 1, Nat.lt_of_le_of_lt (Nat.sub_le _ _) x.isLt⟩, y)] else []) ++
  (if h : x.val < 4 then [(⟨x.val + 1, Nat.add_lt_add_right h 1⟩, y)] else []) ++
  (if h : 0 < y.val then [(x, ⟨y.val - 1, Nat.lt_of_le_of_lt (Nat.sub_le _ _) y.isLt⟩)] else []) ++
  (if h : y.val < 4 then [(x, ⟨y.val + 1, Nat.add_lt_add_right h 1⟩)] else [])

/-- An entry of the to_explode list: the tuple (x, y, owner) built by the scan. -/
abbrev Entry := Fin 5 × Fin 5 × Role

/-- The position (x, y) of a to_explode entry. -/
def epos (e : Entry) : Pos := (e.1, e.2.1)

/-- Processing one collected cell: clear it, then for each in-bounds
orthogonal neighbour overwrite the owner with the exploding cell's recorded
owner and increment its count by 1 (Python lines 237-241). -/
def explodeOne (g : Grid) (e : Entry) : Grid :=
  let g1 := setCell g e.2.1 e.1 none
  (get_neighbors e.1 e.2.1).foldl
    (fun gacc n => setCell gacc n.2 n.1 (some (e.2.2, cellCount (gacc n.2 n.1) + 1))) g1

/-- Processing a list of collected cells in order (the inner for-loop). -/
def explodeList (g : Grid) (l : List Entry) : Grid := l.foldl explodeOne g

/-- The scan building to_explode: row-major over y then x, collecting
(x, y, owner) for every cell with count >= 4 (Python lines 230-234). -/
def scanExplode (g : Grid) : List Entry :=
  (List.finRange 5).flatMap fun y =>
    (List.finRange 5).filterMap fun x =>
      match g y x with
      | some (o, n) => if 4 ≤ n then some (x, y, o) else none
      | none => none

/-- One wave of the reaction loop: scan, then process every collected cell.
When the scan is empty this is the identity, matching the loop's break. -/
def runWave (g : Grid) : Grid := explodeList g (scanExplode g)

/-- The while-loop of process_reactions, with explicit fuel.  Returns the
final grid together with the number of waves that executed explosions. -/
def processLoop : Nat → Grid → Grid × Nat
  | 0, g => (g, 0)
  | n + 1, g =>
    if scanExplode g = [] then (g, 0)
    else
      match processLoop n (runWave g) with
      | (g', k) => (g', k + 1)

/-- Total stored count over the whole board. -/
def mass (g : Grid) : Nat := ∑ p : Pos, cellCount (cellGet g p)

/-- A position all four of whose orthogonal neighbours exist, i.e. both
coordinates lie in 1..3 on the 5x5 board. -/
def isInterior (p : Pos) : Bool :=
  decide (1 ≤ p.1.val ∧ p.1.val ≤ 3 ∧ 1 ≤ p.2.val ∧ p.2.val ≤ 3)

/-- Stored count over the interior cells. -/
def imass (g : Grid) : Nat :=
  ∑ p ∈ Finset.univ.filter (fun p : Pos => isInterior p = true), cellCount (cellGet g p)

/-- Stored count over the boundary cells. -/
def bmass (g : Grid) : Nat :=
  ∑ p ∈ Finset.univ.filter (fun p : Pos => ¬ isInterior p = true), cellCount (cellGet g p)

/-- Termination measure for the reaction loop. -/
def phi (g : Grid) : Nat := mass g * mass g + imass g

/-- The async process_reactions(gid, player) on the session's grid.  The
Python loop has no iteration cap; it is modelled with a fuel that is proved
below to always reach the loop's fixed point.  The player argument is
received (as in the source) but never read.  Returns the final grid and the
number of explosion waves. -/
def process_reactions (g : Grid) (player : Role) : Grid × Nat :=
  processLoop (2 * phi g + 2) g

/-- Outcome of the /move endpoint: an HTTP 401, an {"error": msg} payload,
or {"ok": true}. -/
inductive MoveResult where
  | unauthorized
  | errorMsg (msg : String)
  | ok
deriving DecidableEq, Repr

/-- The per-session state stored in games[gid]: the grid and current_player. -/
structure GameSt where
  grid : Grid
  current_player : Role

instance : DecidableEq GameSt := fun a b =>
  decidable_of_iff (a.grid = b.grid ∧ a.current_player = b.current_player)
    (by cases a; cases b; simp)

/-- The module-level mutable dictionaries of main.py that the move path
touches: games, initial_moves_done and player_tokens. -/
structure ServerState where
  games : String → Option GameSt
  initial_moves_done : String → Option (Role → Bool)
  player_tokens : String → Option (String × Role)

/-- games[gid] after ensure_game_initialized has run (always present). -/
def getSession (st : ServerState) (gid : String) : GameSt :=
  match st.games gid with
  | some s => s
  | none => ⟨new_empty_grid, .RED⟩

/-- initial_moves_done[gid] after ensure_game_initialized (always present). -/
def getFlags (st : ServerState) (gid : String) : Role → Bool :=
  match st.initial_moves_done gid with
  | some f => f
  | none => fun _ => false

def setSession (st : ServerState) (gid : String) (s : GameSt) : ServerState :=
  { st with games := fun g => if g = gid then some s else st.games g }

def setFlag (st : ServerState) (gid : String) (r : Role) : ServerState :=
  { st with initial_moves_done := fun g =>
      if g = gid then some (fun r' => if r' = r then true else getFlags st gid r')
      else st.initial_moves_done g }

/-- First half of ensure_game_initialized: create games[gid] when absent. -/
def ensureGames (st : ServerState) (gid : String) : ServerState :=
  match st.games gid with
  | some _ => st
  | none => { st with games := fun g =>
      if g = gid then some ⟨new_empty_grid, .RED⟩ else st.games g }

/-- Second half of ensure_game_initialized: default opening-move flags. -/
def ensureFlags (st : ServerState) (gid : String) : ServerState :=
  match st.initial_moves_done gid with
  | some _ => st
  | none => { st with initial_moves_done := fun g =>
      if g = gid then some (fun _ => false) else st.initial_moves_done g }

/-- Python ensure_game_initialized: create the session and the opening-move
flags when absent; a no-op on each map when the key is already present. -/
def ensureGame (st : ServerState) (gid : String) : ServerState :=
  ensureFlags (ensureGames st gid) gid

/-- The body of the /move endpoint from the bounds check on (Python lines
191-217), after ensure_game_initialized has run, for in-range coordinates
(xf, yf).  Returns the new server state, the response, and the list of
GameState snapshots broadcast to the session's subscribers, in publish
order.  process_reactions broadcasts nothing (its source contains no
broadcast call); the single broadcast happens after the cascade and the
current_player update. -/
def move_apply (st1 : ServerState) (gid : String) (player : Role) (xf yf : Fin 5) :
    ServerState × MoveResult × List GameSt :=
  if getFlags st1 gid player = false then
    match cellOwner ((getSession st1 gid).grid yf xf) with
    | none =>
      (setFlag (setSession st1 gid
          ⟨setCell (getSession st1 gid).grid yf xf (some (player, 1)), player.other⟩)
          gid player,
       .ok,
       [⟨setCell (getSession st1 gid).grid yf xf (some (player, 1)), player.other⟩])
    | some _ => (st1, .errorMsg "Invalid initial move", [])
  else
    if cellOwner ((getSession st1 gid).grid yf xf) ≠ some player then
      (st1, .errorMsg "Not your cell", [])
    else
      (setSession st1 gid
        ⟨(process_reactions (setCell (getSession st1 gid).grid yf xf
            (some (player, cellCount ((getSession st1 gid).grid yf xf) + 1))) player).1,
          player.other⟩,
       .ok,
       [⟨(process_reactions (setCell (getSession st1 gid).grid yf xf
            (some (player, cellCount ((getSession st1 gid).grid yf xf) + 1))) player).1,
          player.other⟩])

/-- The /move endpoint once the token has resolved to (gid, player):
ensure the session, then bounds-check the coordinates (Python lines
187-192). -/
def move_endpoint_core (st : ServerState) (gid : String) (player : Role) (x y : Int) :
    ServerState × MoveResult × List GameSt :=
  if h : y < 0 ∨ 5 ≤ y ∨ x < 0 ∨ 5 ≤ x then
    (ensureGame st gid, .errorMsg "Invalid coordinates", [])
  else
    move_apply (ensureGame st gid) gid player ⟨x.toNat, by omega⟩ ⟨y.toNat, by omega⟩

/-- The /move endpoint (Python lines 178-217): resolve the token (401 when
unknown), then run the move body. -/
def move_endpoint (st : ServerState) (token : String) (x y : Int) :
    ServerState × MoveResult × List GameSt :=
  match st.player_tokens token with
  | none => (st, .unauthorized, [])
  | some (gid, player) => move_endpoint_core st gid player x y

/-- Number of entries of l whose explosion increments the cell at p. -/
def adjCount (p : Pos) (l : List Entry) : Nat :=
  l.countP (fun e => decide (p ∈ get_neighbors e.1 e.2.1))

/-- The entries processed strictly after the first entry at position p. -/
def afterEntry (p : Pos) (l : List Entry) : List Entry :=
  (l.dropWhile (fun e => !(decide (epos e = p)))).tail

/-- Two collected entries whose positions are not orthogonal neighbours of
each other. -/
def entryNonAdj (a b : Entry) : Prop :=
  epos a ∉ get_neighbors b.1 b.2.1 ∧ epos b ∉ get_neighbors a.1 a.2.1

/-- All same-wave entries pairwise non-adjacent. -/
def pairwiseNonAdj (l : List Entry) : Prop := l.Pairwise entryNonAdj

instance : DecidablePred pairwiseNonAdj := fun l => by
  unfold pairwiseNonAdj entryNonAdj
  infer_instance

instance : Fintype Role :=
  ⟨⟨{Role.RED, Role.BLUE}, by decide⟩, fun r => by cases r <;> decide⟩

/-! ## A server holding a single session "g", for concrete scenarios -/

def oneSession (g : Grid) (cur : Role) (fl : Role → Bool)
    (toks : String → Option (String × Role)) : ServerState :=
  ⟨fun s => if s = "g" then some ⟨g, cur⟩ else none,
   fun s => if s = "g" then some fl else none,
   toks⟩

/-! ## Concrete boards and token maps for the scenarios -/

def demoTokens : String → Option (String × Role) :=
  fun t => if t = "t" then some ("g", Role.RED) else none

def blueTokens : String → Option (String × Role) :=
  fun t => if t = "b" then some ("g", Role.BLUE) else none

def allFalse : Role → Bool := fun _ => false

def flagsRED : Role → Bool := fun r => if r = Role.RED then true else false

def E0 : Grid := new_empty_grid

def E1 : Grid := fun y x => if y.val = 2 ∧ x.val = 2 then some (.RED, 1) else none

def E2 : Grid := fun y x => if y.val = 2 ∧ x.val = 2 then some (.RED, 2) else none

def E3 : Grid := fun y x => if y.val = 2 ∧ x.val = 2 then some (.RED, 3) else none

/-- The plus-shaped board left by the one cascade wave of the scenario. -/
def E4 : Grid := fun y x =>
  if (y.val = 2 ∧ (x.val = 1 ∨ x.val = 3)) ∨ (x.val = 2 ∧ (y.val = 1 ∨ y.val = 3))
  then some (.RED, 1) else none

/-- A lone corner cell at critical mass. -/
def cornerGrid : Grid := fun y x => if y.val = 0 ∧ x.val = 0 then some (.RED, 4) else none

/-- Two orthogonally adjacent cells, different owners, both at critical mass. -/
def adjacentPairGrid : Grid := fun y x =>
  if y.val = 0 ∧ x.val = 0 then some (.RED, 4)
  else if y.val = 0 ∧ x.val = 1 then some (.BLUE, 4)
  else none

/-- Cells (1,2) and (3,2) at critical mass sharing the neighbour (2,2). -/
def sharedNbrGrid : Grid := fun y x =>
  if y.val = 2 ∧ x.val = 1 then some (.RED, 4)
  else if y.val = 2 ∧ x.val = 3 then some (.RED, 4)
  else if y.val = 2 ∧ x.val = 2 then some (.RED, 1)
  else none

/-- Total number of edges from the cells collected for explosion to their
in-bounds orthogonal neighbours. -/
def edgeCount (g : Grid) : Nat :=
  ((scanExplode g).map (fun e => (get_neighbors e.1 e.2.1).length)).sum

/-! ## Pointwise characterisation of the primitive grid operations -/

lemma cellGet_setCell (g : Grid) (y x : Fin 5) (c : Cell) (p : Pos) :
    cellGet (setCell g y x c) p = if p = (x, y) then c else cellGet g p := by
  unfold cellGet setCell
  by_cases h : p = (x, y)
  · subst h; simp
  · have hne : ¬ (p.2 = y ∧ p.1 = x) := by
      intro hc
      exact h (Prod.ext hc.2 hc.1)
    simp [hne, h]

lemma get_neighbors_nodup : ∀ x y : Fin 5, (get_neighbors x y).Nodup := by decide

lemma self_not_mem_neighbors : ∀ x y : Fin 5, (x, y) ∉ get_neighbors x y := by decide

lemma get_neighbors_length_le : ∀ x y : Fin 5, (get_neighbors x y).length ≤ 4 := by decide

lemma get_neighbors_length_four :
    ∀ x y : Fin 5, (get_neighbors x y).length = 4 ↔ isInterior (x, y) = true := by decide

lemma foldl_inc_get (o : Role) :
    ∀ (l : List Pos) (g : Grid) (p : Pos), l.Nodup →
      cellGet (l.foldl (fun gacc n => setCell gacc n.2 n.1 (some (o, cellCount (gacc n.2 n.1) + 1))) g) p =
      if p ∈ l then some (o, cellCount (cellGet g p) + 1) else cellGet g p := by
  intro l
  induction l with
  | nil => intro g p _; simp
  | cons a t ih =>
    intro g p hnd
    rw [List.foldl_cons, ih _ p hnd.of_cons]
    by_cases hpa : p = a
    · subst hpa
      have hpt : p ∉ t := (List.nodup_cons.mp hnd).1
      rw [if_neg hpt, if_pos (List.mem_cons_self _ _)]
      have : cellGet (setCell g p.2 p.1 (some (o, cellCount (g p.2 p.1) + 1))) p
          = some (o, cellCount (cellGet g p) + 1) := by
        rw [cellGet_setCell, if_pos rfl]; rfl
      exact this
    · have hmem : p ∈ a :: t ↔ p ∈ t := by
        constructor
        · intro hm; rcases List.mem_cons.mp hm with h | h
          · exact absurd h hpa
          · exact h
        · exact fun hm => List.mem_cons_of_mem _ hm
      have hget : cellGet (setCell g a.2 a.1 (some (o, cellCount (g a.2 a.1) + 1))) p = cellGet g p := by
        rw [cellGet_setCell, if_neg (by simpa using hpa)]
      rw [hget]
      by_cases hpt : p ∈ t
      · rw [if_pos hpt, if_pos (hmem.mpr hpt)]
      · rw [if_neg hpt, if_neg (fun hc => hpt (hmem.mp hc))]

lemma cellGet_explodeOne (g : Grid) (e : Entry) (p : Pos) :
    cellGet (explodeOne g e) p =
      if p = epos e then none
      else if p ∈ get_neighbors e.1 e.2.1 then some (e.2.2, cellCount (cellGet g p) + 1)
      else cellGet g p := by
  unfold epos
  show cellGet ((get_neighbors e.1 e.2.1).foldl
      (fun gacc n => setCell gacc n.2 n.1 (some (e.2.2, cellCount (gacc n.2 n.1) + 1)))
      (setCell g e.2.1 e.1 none)) p = _
  rw [foldl_inc_get e.2.2 _ _ p (get_neighbors_nodup e.1 e.2.1)]
  by_cases hp : p = (e.1, e.2.1)
  · have hnm : p ∉ get_neighbors e.1 e.2.1 := by
      rw [hp]; exact self_not_mem_neighbors e.1 e.2.1
    rw [if_neg hnm, cellGet_setCell, if_pos hp, if_pos hp]
  · rw [cellGet_setCell, if_neg hp, if_neg hp]

lemma cellCount_explodeOne_ne (g : Grid) (e : Entry) (p : Pos) (hp : p ≠ epos e) :
    cellCount (cellGet (explodeOne g e) p) =
      cellCount (cellGet g p) + (if p ∈ get_neighbors e.1 e.2.1 then 1 else 0) := by
  rw [cellGet_explodeOne, if_neg hp]
  split
  · rfl
  · rfl

/-! ## Mass accounting -/

lemma sum_swap_point (f g' : Pos → Nat) (a : Pos) (h : ∀ p, p ≠ a → g' p = f p) :
    (∑ p : Pos, g' p) + f a = (∑ p : Pos, f p) + g' a := by
  have heq : ∑ p ∈ Finset.univ.erase a, g' p = ∑ p ∈ Finset.univ.erase a, f p :=
    Finset.sum_congr rfl (fun p hp => h p (Finset.ne_of_mem_erase hp))
  rw [← Finset.sum_erase_add Finset.univ g' (Finset.mem_univ a),
      ← Finset.sum_erase_add Finset.univ f (Finset.mem_univ a)]
  omega

lemma mass_setCell (g : Grid) (y x : Fin 5) (c : Cell) :
    mass (setCell g y x c) + cellCount (cellGet g (x, y)) = mass g + cellCount c := by
  have h := sum_swap_point (fun p => cellCount (cellGet g p))
    (fun p => cellCount (cellGet (setCell g y x c) p)) (x, y)
    (fun p hp => by simp only []; rw [cellGet_setCell, if_neg hp])
  have h3 : cellCount (cellGet (setCell g y x c) (x, y)) = cellCount c := by
    rw [cellGet_setCell, if_pos rfl]
  simp only [] at h
  unfold mass
  omega

lemma mass_foldl_inc (o : Role) :
    ∀ (l : List Pos) (g : Grid),
      mass (l.foldl (fun gacc n => setCell gacc n.2 n.1 (some (o, cellCount (gacc n.2 n.1) + 1))) g) =
      mass g + l.length := by
  intro l
  induction l with
  | nil => intro g; simp
  | cons a t ih =>
    intro g
    rw [List.foldl_cons, ih]
    have hstep := mass_setCell g a.2 a.1 (some (o, cellCount (g a.2 a.1) + 1))
    have hc : cellCount (some (o, cellCount (g a.2 a.1) + 1)) = cellCount (g a.2 a.1) + 1 := rfl
    have hg : cellCount (cellGet g (a.1, a.2)) = cellCount (g a.2 a.1) := rfl
    rw [hc, hg] at hstep
    simp only [List.length_cons]
    omega

lemma explodeList_nil (g : Grid) : explodeList g [] = g := rfl

lemma explodeList_cons (g : Grid) (a : Entry) (t : List Entry) :
    explodeList g (a :: t) = explodeList (explodeOne g a) t := rfl

lemma mass_explodeOne (g : Grid) (e : Entry) :
    mass (explodeOne g e) + cellCount (cellGet g (epos e)) =
      mass g + (get_neighbors e.1 e.2.1).length := by
  show mass ((get_neighbors e.1 e.2.1).foldl
      (fun gacc n => setCell gacc n.2 n.1 (some (e.2.2, cellCount (gacc n.2 n.1) + 1)))
      (setCell g e.2.1 e.1 none)) + cellCount (cellGet g (epos e)) = _
  rw [mass_foldl_inc]
  have hclear := mass_setCell g e.2.1 e.1 none
  have hc : cellCount (none : Cell) = 0 := rfl
  rw [hc] at hclear
  have hg : cellCount (cellGet g (e.1, e.2.1)) = cellCount (cellGet g (epos e)) := rfl
  omega

/-! ## The scan: membership and distinctness of collected positions -/

lemma mem_scanExplode (g : Grid) (e : Entry) :
    e ∈ scanExplode g ↔ ∃ n, g e.2.1 e.1 = some (e.2.2, n) ∧ 4 ≤ n := by
  unfold scanExplode
  rw [List.mem_flatMap]
  constructor
  · rintro ⟨y, -, hy⟩
    rw [List.mem_filterMap] at hy
    obtain ⟨x, -, hx⟩ := hy
    cases hgx : g y x with
    | none => rw [hgx] at hx; exact absurd hx (by simp)
    | some c =>
      obtain ⟨o, n⟩ := c
      rw [hgx] at hx
      have hx' : (if 4 ≤ n then some ((x, y, o) : Entry) else none) = some e := hx
      by_cases h4 : 4 ≤ n
      · rw [if_pos h4] at hx'
        obtain rfl := Option.some_inj.mp hx'
        exact ⟨n, hgx, h4⟩
      · rw [if_neg h4] at hx'; exact absurd hx' (by simp)
  · rintro ⟨n, hn, h4⟩
    refine ⟨e.2.1, List.mem_finRange _, ?_⟩
    rw [List.mem_filterMap]
    refine ⟨e.1, List.mem_finRange _, ?_⟩
    rw [hn]
    show (if 4 ≤ n then some ((e.1, e.2.1, e.2.2) : Entry) else none) = some e
    rw [if_pos h4]

lemma scanExplode_count (g : Grid) (e : Entry) (he : e ∈ scanExplode g) :
    4 ≤ cellCount (cellGet g (epos e)) := by
  obtain ⟨n, hn, h4⟩ := (mem_scanExplode g e).mp he
  show 4 ≤ cellCount (g e.2.1 e.1)
  rw [hn]
  exact h4

lemma flatMap_sublist_of_sublist {α β : Type} (l : List α) (F G : α → List β)
    (h : ∀ a ∈ l, List.Sublist (F a) (G a)) : List.Sublist (l.flatMap F) (l.flatMap G) := by
  induction l with
  | nil => simp
  | cons a t ih =>
    rw [List.flatMap_cons, List.flatMap_cons]
    exact (h a (List.mem_cons_self a t)).append
      (ih (fun b hb => h b (List.mem_cons_of_mem _ hb)))

lemma filterMap_pos_sublist {α β γ : Type} (f : α → Option β) (pr : β → γ) (q : α → γ)
    (hf : ∀ a c, f a = some c → pr c = q a) :
    ∀ l : List α, List.Sublist ((l.filterMap f).map pr) (l.map q) := by
  intro l
  induction l with
  | nil => simp
  | cons a t ih =>
    rw [List.filterMap_cons, List.map_cons]
    cases hfa : f a with
    | none => exact ih.cons _
    | some c =>
      rw [List.map_cons, hf a c hfa]
      exact ih.cons₂ _

lemma scan_entry_pos (g : Grid) (y a : Fin 5) (c : Entry)
    (h : (match g y a with
          | some (o, n) => if 4 ≤ n then some ((a, y, o) : Entry) else none
          | none => none) = some c) : epos c = (a, y) := by
  cases hga : g y a with
  | none => rw [hga] at h; exact absurd h (by simp)
  | some p =>
    obtain ⟨o, n⟩ := p
    rw [hga] at h
    have h' : (if 4 ≤ n then some ((a, y, o) : Entry) else none) = some c := h
    by_cases h4 : 4 ≤ n
    · rw [if_pos h4] at h'; obtain rfl := Option.some_inj.mp h'; rfl
    · rw [if_neg h4] at h'; exact absurd h' (by simp)

lemma scanExplode_nodup_epos (g : Grid) : ((scanExplode g).map epos).Nodup := by
  have hsub : List.Sublist ((scanExplode g).map epos)
      ((List.finRange 5).flatMap (fun y => (List.finRange 5).map (fun x => ((x, y) : Pos)))) := by
    unfold scanExplode
    rw [List.map_flatMap]
    exact flatMap_sublist_of_sublist _ _ _
      (fun y _ => filterMap_pos_sublist _ epos (fun x => ((x, y) : Pos))
        (fun a c hc => scan_entry_pos g y a c hc) (List.finRange 5))
  have hall : ((List.finRange 5).flatMap
      (fun y => (List.finRange 5).map (fun x => ((x, y) : Pos)))).Nodup := by decide
  exact hall.sublist hsub

/-! ## Mass across one wave -/

lemma explodeList_mass :
    ∀ (l : List Entry) (g : Grid),
      (∀ e ∈ l, 4 ≤ cellCount (cellGet g (epos e))) → (l.map epos).Nodup →
      mass (explodeList g l) ≤ mass g ∧
      (mass (explodeList g l) = mass g →
        ∀ e ∈ l, (get_neighbors e.1 e.2.1).length = 4) := by
  intro l
  induction l with
  | nil =>
    intro g _ _
    exact ⟨le_rfl, fun _ e he => absurd he (List.not_mem_nil e)⟩
  | cons a t ih =>
    intro g hcnt hnd
    rw [List.map_cons, List.nodup_cons] at hnd
    obtain ⟨hna, hnd'⟩ := hnd
    have hstep := mass_explodeOne g a
    have hc : 4 ≤ cellCount (cellGet g (epos a)) := hcnt a (List.mem_cons_self a t)
    have hlen : (get_neighbors a.1 a.2.1).length ≤ 4 := get_neighbors_length_le _ _
    have hmle : mass (explodeOne g a) ≤ mass g := by omega
    have hcnt' : ∀ e ∈ t, 4 ≤ cellCount (cellGet (explodeOne g a) (epos e)) := by
      intro e he
      have hne : epos e ≠ epos a := by
        intro hcontra
        exact hna (hcontra ▸ List.mem_map_of_mem epos he)
      rw [cellCount_explodeOne_ne _ _ _ hne]
      have := hcnt e (List.mem_cons_of_mem _ he)
      omega
    obtain ⟨ihle, iheq⟩ := ih (explodeOne g a) hcnt' hnd'
    rw [explodeList_cons]
    refine ⟨ihle.trans hmle, ?_⟩
    intro heq e he
    have h2 : mass (explodeOne g a) = mass g := by omega
    rcases List.mem_cons.mp he with rfl | het
    · omega
    · exact iheq (by omega) e het

/-! ## Boundary mass across interior-only explosions -/

lemma boundary_count_mono :
    ∀ (l : List Entry) (g : Grid) (p : Pos),
      (∀ e ∈ l, isInterior (epos e) = true) → isInterior p = false →
      cellCount (cellGet g p) ≤ cellCount (cellGet (explodeList g l) p) := by
  intro l
  induction l with
  | nil => intro g p _ _; exact le_rfl
  | cons a t ih =>
    intro g p hint hb
    rw [explodeList_cons]
    have hpa : p ≠ epos a := by
      intro h
      rw [h, hint a (List.mem_cons_self a t)] at hb
      exact absurd hb (by simp)
    calc cellCount (cellGet g p) ≤ cellCount (cellGet (explodeOne g a) p) := by
          rw [cellCount_explodeOne_ne _ _ _ hpa]; omega
      _ ≤ _ := ih (explodeOne g a) p (fun e he => hint e (List.mem_cons_of_mem _ he)) hb

lemma boundary_count_strict :
    ∀ (l : List Entry) (g : Grid) (p : Pos) (e0 : Entry), e0 ∈ l →
      p ∈ get_neighbors e0.1 e0.2.1 →
      (∀ e ∈ l, isInterior (epos e) = true) → isInterior p = false →
      cellCount (cellGet g p) + 1 ≤ cellCount (cellGet (explodeList g l) p) := by
  intro l
  induction l with
  | nil => intro g p e0 h; exact absurd h (List.not_mem_nil e0)
  | cons a t ih =>
    intro g p e0 he0 hnb hint hb
    rw [explodeList_cons]
    have hpa : p ≠ epos a := by
      intro h
      rw [h, hint a (List.mem_cons_self a t)] at hb
      exact absurd hb (by simp)
    have hintt : ∀ e ∈ t, isInterior (epos e) = true :=
      fun e he => hint e (List.mem_cons_of_mem _ he)
    rcases List.mem_cons.mp he0 with rfl | het
    · have hbump : cellCount (cellGet (explodeOne g e0) p) = cellCount (cellGet g p) + 1 := by
        rw [cellCount_explodeOne_ne _ _ _ hpa, if_pos hnb]
      calc cellCount (cellGet g p) + 1 = cellCount (cellGet (explodeOne g e0) p) := hbump.symm
        _ ≤ _ := boundary_count_mono t _ p hintt hb
    · calc cellCount (cellGet g p) + 1 ≤ cellCount (cellGet (explodeOne g a) p) + 1 := by
            rw [cellCount_explodeOne_ne _ _ _ hpa]; omega
        _ ≤ _ := ih (explodeOne g a) p e0 het hnb hintt hb

/-! ## The termination measure phi -/

lemma imass_add_bmass (g : Grid) : imass g + bmass g = mass g := by
  unfold imass bmass mass
  rw [Finset.sum_filter_add_sum_filter_not]

lemma imass_le_mass (g : Grid) : imass g ≤ mass g := by
  have := imass_add_bmass g; omega

lemma cellCount_le_mass (g : Grid) (p : Pos) : cellCount (cellGet g p) ≤ mass g := by
  have h := Finset.sum_erase_add Finset.univ
    (fun q : Pos => cellCount (cellGet g q)) (Finset.mem_univ p)
  simp only [] at h
  unfold mass
  omega

lemma bmass_mono (l : List Entry) (g : Grid)
    (hint : ∀ e ∈ l, isInterior (epos e) = true) :
    bmass g ≤ bmass (explodeList g l) := by
  unfold bmass
  refine Finset.sum_le_sum (fun p hp => ?_)
  have hb : isInterior p = false := by
    have := (Finset.mem_filter.mp hp).2
    simpa using this
  exact boundary_count_mono l g p hint hb

lemma bmass_strict (l : List Entry) (g : Grid) (e0 : Entry) (p0 : Pos)
    (he0 : e0 ∈ l) (hnb : p0 ∈ get_neighbors e0.1 e0.2.1)
    (hint : ∀ e ∈ l, isInterior (epos e) = true) (hb0 : isInterior p0 = false) :
    bmass g < bmass (explodeList g l) := by
  unfold bmass
  refine Finset.sum_lt_sum (fun p hp => ?_) ⟨p0, ?_, ?_⟩
  · have hb : isInterior p = false := by
      have := (Finset.mem_filter.mp hp).2
      simpa using this
    exact boundary_count_mono l g p hint hb
  · exact Finset.mem_filter.mpr ⟨Finset.mem_univ _, by simp [hb0]⟩
  · have := boundary_count_strict l g p0 e0 he0 hnb hint hb0
    omega

lemma interior_of_deg_four (e : Entry) (h : (get_neighbors e.1 e.2.1).length = 4) :
    isInterior (epos e) = true :=
  (get_neighbors_length_four e.1 e.2.1).mp h

lemma noncenter_boundary_nbr :
    ∀ x y : Fin 5, isInterior (x, y) = true → ((x, y) : Pos) ≠ ((2 : Fin 5), (2 : Fin 5)) →
      ∃ p ∈ get_neighbors x y, isInterior p = false := by decide

lemma mass_runWave_le (g : Grid) : mass (runWave g) ≤ mass g :=
  (explodeList_mass (scanExplode g) g (fun e he => scanExplode_count g e he)
    (scanExplode_nodup_epos g)).1

lemma phi_runWave_le (g : Grid) : phi (runWave g) ≤ phi g := by
  have hm := mass_runWave_le g
  rcases Nat.lt_or_ge (mass (runWave g)) (mass g) with hlt | hge
  · have h1 : imass (runWave g) ≤ mass (runWave g) := imass_le_mass _
    have h3 : (mass (runWave g) + 1) * (mass (runWave g) + 1)
        = mass (runWave g) * mass (runWave g) + 2 * mass (runWave g) + 1 := by ring
    have h2 : (mass (runWave g) + 1) * (mass (runWave g) + 1) ≤ mass g * mass g :=
      Nat.mul_le_mul (by omega) (by omega)
    unfold phi
    omega
  · have heq : mass (runWave g) = mass g := le_antisymm hm hge
    have heq' : mass (explodeList g (scanExplode g)) = mass g := heq
    have hdeg := (explodeList_mass (scanExplode g) g
      (fun e he => scanExplode_count g e he) (scanExplode_nodup_epos g)).2 heq'
    have hint : ∀ e ∈ scanExplode g, isInterior (epos e) = true :=
      fun e he => interior_of_deg_four e (hdeg e he)
    have hb : bmass g ≤ bmass (runWave g) := bmass_mono (scanExplode g) g hint
    have hi1 := imass_add_bmass g
    have hi2 := imass_add_bmass (runWave g)
    unfold phi
    rw [heq] at hi2 ⊢
    omega

lemma scan_center_of_phi_eq (g : Grid) (hne : scanExplode g ≠ [])
    (hphi : phi (runWave g) = phi g) :
    ∃ o : Role, scanExplode g = [((2 : Fin 5), (2 : Fin 5), o)] := by
  have hm := mass_runWave_le g
  have hmeq : mass (runWave g) = mass g := by
    rcases Nat.lt_or_ge (mass (runWave g)) (mass g) with hlt | hge
    · exfalso
      have h1 : imass (runWave g) ≤ mass (runWave g) := imass_le_mass _
      have h3 : (mass (runWave g) + 1) * (mass (runWave g) + 1)
          = mass (runWave g) * mass (runWave g) + 2 * mass (runWave g) + 1 := by ring
      have h2 : (mass (runWave g) + 1) * (mass (runWave g) + 1) ≤ mass g * mass g :=
        Nat.mul_le_mul (by omega) (by omega)
      unfold phi at hphi
      omega
    · exact le_antisymm hm hge
  have hmeq' : mass (explodeList g (scanExplode g)) = mass g := hmeq
  have hdeg := (explodeList_mass (scanExplode g) g
    (fun e he => scanExplode_count g e he) (scanExplode_nodup_epos g)).2 hmeq'
  have hint : ∀ e ∈ scanExplode g, isInterior (epos e) = true :=
    fun e he => interior_of_deg_four e (hdeg e he)
  have hcen : ∀ e ∈ scanExplode g, epos e = ((2 : Fin 5), (2 : Fin 5)) := by
    intro e he
    by_contra hnc
    obtain ⟨p0, hp0mem, hp0b⟩ :=
      noncenter_boundary_nbr e.1 e.2.1 (hint e he) hnc
    have hstrict0 := bmass_strict (scanExplode g) g e p0 he hp0mem hint hp0b
    have hstrict : bmass g < bmass (runWave g) := hstrict0
    have hi1 := imass_add_bmass g
    have hi2 := imass_add_bmass (runWave g)
    unfold phi at hphi
    rw [hmeq] at hphi hi2
    omega
  obtain ⟨e, t, hcons⟩ : ∃ e t, scanExplode g = e :: t := by
    cases hs : scanExplode g with
    | nil => exact absurd hs hne
    | cons e t => exact ⟨e, t, rfl⟩
  have ht : t = [] := by
    cases t with
    | nil => rfl
    | cons e' t' =>
      exfalso
      have hnd := scanExplode_nodup_epos g
      rw [hcons, List.map_cons, List.map_cons, List.nodup_cons] at hnd
      have h1 : epos e = ((2 : Fin 5), (2 : Fin 5)) :=
        hcen e (by rw [hcons]; exact List.mem_cons_self _ _)
      have h2 : epos e' = ((2 : Fin 5), (2 : Fin 5)) :=
        hcen e' (by rw [hcons]; exact List.mem_cons_of_mem _ (List.mem_cons_self _ _))
      apply hnd.1
      rw [h1, ← h2]
      exact List.mem_cons_self _ _
  subst ht
  have h1 : epos e = ((2 : Fin 5), (2 : Fin 5)) :=
    hcen e (by rw [hcons]; exact List.mem_cons_self _ _)
  refine ⟨e.2.2, ?_⟩
  rw [hcons]
  obtain ⟨x, y, o⟩ := e
  have hx : x = (2 : Fin 5) := congrArg Prod.fst h1
  have hy : y = (2 : Fin 5) := congrArg Prod.snd h1
  rw [hx, hy]

lemma runWave_center_none (g : Grid) (o : Role)
    (hs : scanExplode g = [((2 : Fin 5), (2 : Fin 5), o)]) :
    cellGet (runWave g) ((2 : Fin 5), (2 : Fin 5)) = none := by
  unfold runWave
  rw [hs]
  show cellGet (explodeOne g ((2 : Fin 5), (2 : Fin 5), o)) ((2 : Fin 5), (2 : Fin 5)) = none
  rw [cellGet_explodeOne]
  exact if_pos rfl

lemma phi_strict_of_center_none (g : Grid)
    (hc : cellGet g ((2 : Fin 5), (2 : Fin 5)) = none)
    (hne : scanExplode g ≠ []) : phi (runWave g) < phi g := by
  rcases Nat.lt_or_ge (phi (runWave g)) (phi g) with h | h
  · exact h
  · exfalso
    have heq : phi (runWave g) = phi g := le_antisymm (phi_runWave_le g) h
    obtain ⟨o, hs⟩ := scan_center_of_phi_eq g hne heq
    have hmem : ((2 : Fin 5), (2 : Fin 5), o) ∈ scanExplode g := by
      rw [hs]; exact List.mem_cons_self _ _
    have h4 := scanExplode_count g _ hmem
    have h0 : cellCount (cellGet g (epos ((2 : Fin 5), (2 : Fin 5), o))) = 0 := by
      show cellCount (cellGet g ((2 : Fin 5), (2 : Fin 5))) = 0
      rw [hc]
      rfl
    omega

/-! ## The reaction loop terminates -/

lemma processLoop_terminal (g : Grid) (h : scanExplode g = []) :
    ∀ m, processLoop m g = (g, 0) := by
  intro m
  cases m with
  | zero => rfl
  | succ k =>
    unfold processLoop
    rw [if_pos h]

lemma processLoop_succ_of_ne (n : Nat) (g : Grid) (hs : ¬ scanExplode g = []) :
    processLoop (n + 1) g =
      ((processLoop n (runWave g)).1, (processLoop n (runWave g)).2 + 1) := by
  rw [processLoop]
  rw [if_neg hs]

lemma processLoop_stable :
    ∀ (n : Nat) (g : Grid), scanExplode (processLoop n g).1 = [] →
      ∀ m, n ≤ m → processLoop m g = processLoop n g := by
  intro n
  induction n with
  | zero =>
    intro g h m _
    exact processLoop_terminal g h m
  | succ k ih =>
    intro g h m hm
    by_cases hs : scanExplode g = []
    · rw [processLoop_terminal g hs, processLoop_terminal g hs]
    · obtain ⟨m', rfl⟩ : ∃ m', m = m' + 1 := ⟨m - 1, by omega⟩
      have hm' : k ≤ m' := by omega
      have hh : scanExplode (processLoop k (runWave g)).1 = [] := by
        rw [processLoop_succ_of_ne k g hs] at h
        exact h
      rw [processLoop_succ_of_ne m' g hs, processLoop_succ_of_ne k g hs,
        ih (runWave g) hh m' hm']

lemma processLoop_reaches_terminal :
    ∀ (k : Nat) (g : Grid), phi g ≤ k →
      scanExplode (processLoop (2 * k + 2) g).1 = [] := by
  intro k
  induction k with
  | zero =>
    intro g hk
    have hm : mass g = 0 := by
      have h0 : mass g * mass g = 0 := by
        unfold phi at hk; omega
      exact mul_self_eq_zero.mp h0
    have hscan : scanExplode g = [] := by
      rw [List.eq_nil_iff_forall_not_mem]
      intro e he
      have h4 := scanExplode_count g e he
      have hle := cellCount_le_mass g (epos e)
      omega
    rw [processLoop_terminal g hscan]
    exact hscan
  | succ k ih =>
    intro g hk
    by_cases hs : scanExplode g = []
    · rw [processLoop_terminal g hs]
      exact hs
    · have hphile := phi_runWave_le g
      by_cases hlt : phi (runWave g) ≤ k
      · have hterm := ih (runWave g) hlt
        have hstable := processLoop_stable (2 * k + 2) (runWave g) hterm (2 * k + 3) (by omega)
        rw [show 2 * (k + 1) + 2 = (2 * k + 3) + 1 from by omega,
          processLoop_succ_of_ne _ _ hs]
        show scanExplode (processLoop (2 * k + 3) (runWave g)).1 = []
        rw [hstable]
        exact hterm
      · have hphieq : phi (runWave g) = phi g := by omega
        obtain ⟨o, hcen⟩ := scan_center_of_phi_eq g hs hphieq
        have hcnone := runWave_center_none g o hcen
        by_cases hs1 : scanExplode (runWave g) = []
        · rw [show 2 * (k + 1) + 2 = (2 * k + 3) + 1 from by omega,
            processLoop_succ_of_ne _ _ hs]
          show scanExplode (processLoop (2 * k + 3) (runWave g)).1 = []
          rw [processLoop_terminal _ hs1]
          exact hs1
        · have hstrict := phi_strict_of_center_none (runWave g) hcnone hs1
          have hlt2 : phi (runWave (runWave g)) ≤ k := by omega
          have hterm := ih (runWave (runWave g)) hlt2
          rw [show 2 * (k + 1) + 2 = (2 * k + 3) + 1 from by omega,
            processLoop_succ_of_ne _ _ hs]
          show scanExplode (processLoop (2 * k + 3) (runWave g)).1 = []
          rw [show 2 * k + 3 = (2 * k + 2) + 1 from by omega,
            processLoop_succ_of_ne _ _ hs1]
          show scanExplode (processLoop (2 * k + 2) (runWave (runWave g))).1 = []
          exact hterm

/-- process_reactions always reaches the loop's fixed point: its fuel is
sufficient, so the returned grid has no cell with count >= 4. -/
lemma process_reactions_terminal (g : Grid) (r : Role) :
    scanExplode (process_reactions g r).1 = [] :=
  processLoop_reaches_terminal (phi g) g le_rfl

/-! ## Per-cell count across one wave -/

lemma adjCount_nil (p : Pos) : adjCount p [] = 0 := rfl

lemma adjCount_cons (p : Pos) (a : Entry) (t : List Entry) :
    adjCount p (a :: t) =
      (if p ∈ get_neighbors a.1 a.2.1 then 1 else 0) + adjCount p t := by
  unfold adjCount
  rw [List.countP_cons]
  by_cases h : p ∈ get_neighbors a.1 a.2.1
  · rw [if_pos h, if_pos (by simpa using h)]
    omega
  · rw [if_neg h, if_neg (by simpa using h)]
    omega

lemma afterEntry_cons_self (p : Pos) (a : Entry) (t : List Entry) (h : epos a = p) :
    afterEntry p (a :: t) = t := by
  unfold afterEntry
  rw [List.dropWhile_cons, if_neg (by simp [h])]
  rfl

lemma afterEntry_cons_ne (p : Pos) (a : Entry) (t : List Entry) (h : epos a ≠ p) :
    afterEntry p (a :: t) = afterEntry p t := by
  unfold afterEntry
  rw [List.dropWhile_cons, if_pos (by simp [h])]

lemma explodeList_cellCount :
    ∀ (l : List Entry) (g : Grid) (p : Pos), (l.map epos).Nodup →
      cellCount (cellGet (explodeList g l) p) =
        if p ∈ l.map epos then adjCount p (afterEntry p l)
        else cellCount (cellGet g p) + adjCount p l := by
  intro l
  induction l with
  | nil =>
    intro g p _
    rw [if_neg (by simp)]
    rw [explodeList_nil, adjCount_nil]
    omega
  | cons a t ih =>
    intro g p hnd
    rw [List.map_cons, List.nodup_cons] at hnd
    obtain ⟨hna, hnd'⟩ := hnd
    rw [explodeList_cons, ih _ p hnd']
    by_cases hpa : p = epos a
    · have hpt : p ∉ t.map epos := by rw [hpa]; exact hna
      rw [if_neg hpt,
        if_pos (by rw [List.map_cons]; exact hpa ▸ List.mem_cons_self _ _),
        afterEntry_cons_self p a t hpa.symm]
      have hclear : cellCount (cellGet (explodeOne g a) p) = 0 := by
        rw [cellGet_explodeOne, if_pos hpa]
        rfl
      rw [hclear]
      omega
    · have hmem : p ∈ (a :: t).map epos ↔ p ∈ t.map epos := by
        rw [List.map_cons]
        constructor
        · intro hm
          rcases List.mem_cons.mp hm with h | h
          · exact absurd h hpa
          · exact h
        · exact fun hm => List.mem_cons_of_mem _ hm
      by_cases hpt : p ∈ t.map epos
      · rw [if_pos hpt, if_pos (hmem.mpr hpt),
          afterEntry_cons_ne p a t (fun h => hpa h.symm)]
      · rw [if_neg hpt, if_neg (fun hc => hpt (hmem.mp hc)), adjCount_cons,
          cellCount_explodeOne_ne g a p hpa]
        by_cases hma : p ∈ get_neighbors a.1 a.2.1
        · rw [if_pos hma]
          omega
        · rw [if_neg hma]
          omega

/-! ## Order among the cells of one wave -/

lemma explodeList_none_of_no_nbr :
    ∀ (l : List Entry) (g : Grid) (p : Pos),
      (∀ e ∈ l, p ∉ get_neighbors e.1 e.2.1) → cellGet g p = none →
      cellGet (explodeList g l) p = none := by
  intro l
  induction l with
  | nil => intro g p _ h; exact h
  | cons a t ih =>
    intro g p hn h
    rw [explodeList_cons]
    apply ih _ p (fun e he => hn e (List.mem_cons_of_mem _ he))
    by_cases hpa : p = epos a
    · rw [cellGet_explodeOne, if_pos hpa]
    · rw [cellGet_explodeOne, if_neg hpa, if_neg (hn a (List.mem_cons_self _ _))]
      exact h

lemma explodeList_pos_none :
    ∀ (l : List Entry) (g : Grid) (p : Pos), pairwiseNonAdj l → p ∈ l.map epos →
      cellGet (explodeList g l) p = none := by
  intro l
  induction l with
  | nil => intro g p _ h; exact absurd h (by simp)
  | cons a t ih =>
    intro g p hpw hp
    have hpw' : pairwiseNonAdj t := (List.pairwise_cons.mp hpw).2
    rw [explodeList_cons]
    rw [List.map_cons] at hp
    rcases List.mem_cons.mp hp with hpa | hpt
    · apply explodeList_none_of_no_nbr t _ p
      · intro e he
        have hrel := (List.pairwise_cons.mp hpw).1 e he
        exact hpa ▸ hrel.1
      · rw [cellGet_explodeOne, if_pos hpa]
    · exact ih _ p hpw' hpt

lemma explodeList_cell_of_not_pos :
    ∀ (l : List Entry) (g : Grid) (p : Pos) (o : Role),
      (∀ e ∈ l, e.2.2 = o) → p ∉ l.map epos →
      cellGet (explodeList g l) p =
        if adjCount p l = 0 then cellGet g p
        else some (o, cellCount (cellGet g p) + adjCount p l) := by
  intro l
  induction l with
  | nil =>
    intro g p o _ _
    rw [explodeList_nil, adjCount_nil, if_pos rfl]
  | cons a t ih =>
    intro g p o ho hp
    rw [List.map_cons] at hp
    have hpa : p ≠ epos a := fun h => hp (h ▸ List.mem_cons_self _ _)
    have hpt : p ∉ t.map epos := fun h => hp (List.mem_cons_of_mem _ h)
    rw [explodeList_cons, ih _ p o (fun e he => ho e (List.mem_cons_of_mem _ he)) hpt,
      adjCount_cons]
    by_cases hma : p ∈ get_neighbors a.1 a.2.1
    · rw [if_pos hma]
      have hcell : cellGet (explodeOne g a) p = some (o, cellCount (cellGet g p) + 1) := by
        rw [cellGet_explodeOne, if_neg hpa, if_pos hma, ho a (List.mem_cons_self _ _)]
      rw [hcell]
      have hne : ¬ (1 + adjCount p t = 0) := by omega
      rw [if_neg hne]
      by_cases h0 : adjCount p t = 0
      · rw [if_pos h0]
        exact congrArg (fun n => some (o, n)) (by omega)
      · rw [if_neg h0]
        show some (o, cellCount (some (o, cellCount (cellGet g p) + 1)) + adjCount p t) = _
        exact congrArg (fun n => some (o, n)) (by show cellCount (cellGet g p) + 1 + adjCount p t = _; omega)
    · rw [if_neg hma]
      have hcell : cellGet (explodeOne g a) p = cellGet g p := by
        rw [cellGet_explodeOne, if_neg hpa, if_neg hma]
      rw [hcell, Nat.zero_add]

lemma explodeList_perm_eq (g : Grid) (l l' : List Entry) (o : Role)
    (hperm : l.Perm l') (ho : ∀ e ∈ l, e.2.2 = o) (hpw : pairwiseNonAdj l) :
    explodeList g l = explodeList g l' := by
  have ho' : ∀ e ∈ l', e.2.2 = o := fun e he => ho e (hperm.mem_iff.mpr he)
  have hpw' : pairwiseNonAdj l' :=
    (hperm.pairwise_iff (fun {x y} h => ⟨h.2, h.1⟩)).mp hpw
  funext y' x'
  show cellGet (explodeList g l) (x', y') = cellGet (explodeList g l') (x', y')
  by_cases hp : (x', y') ∈ l.map epos
  · rw [explodeList_pos_none l g _ hpw hp,
      explodeList_pos_none l' g _ hpw' ((hperm.map epos).mem_iff.mp hp)]
  · have hp' : (x', y') ∉ l'.map epos := fun h => hp ((hperm.map epos).mem_iff.mpr h)
    rw [explodeList_cell_of_not_pos l g _ o ho hp,
      explodeList_cell_of_not_pos l' g _ o ho' hp']
    rw [show adjCount (x', y') l = adjCount (x', y') l' from hperm.countP_eq _]

/-! ## Session-level helper lemmas -/

lemma ensureGames_of_present (st : ServerState) (gid : String) (s : GameSt)
    (hs : st.games gid = some s) : ensureGames st gid = st := by
  unfold ensureGames
  rw [hs]

lemma ensureFlags_of_present (st : ServerState) (gid : String) (f : Role → Bool)
    (hf : st.initial_moves_done gid = some f) : ensureFlags st gid = st := by
  unfold ensureFlags
  rw [hf]

lemma ensureGame_of_present (st : ServerState) (gid : String) (s : GameSt) (f : Role → Bool)
    (hs : st.games gid = some s) (hf : st.initial_moves_done gid = some f) :
    ensureGame st gid = st := by
  unfold ensureGame
  rw [ensureGames_of_present st gid s hs, ensureFlags_of_present st gid f hf]

lemma getSession_setSession_self (st : ServerState) (gid : String) (s : GameSt) :
    getSession (setSession st gid s) gid = s := by
  unfold getSession setSession
  simp

lemma getSession_setFlag (st : ServerState) (gid gid' : String) (r : Role) :
    getSession (setFlag st gid r) gid' = getSession st gid' := rfl

lemma getFlags_setFlag_self (st : ServerState) (gid : String) (r : Role) :
    getFlags (setFlag st gid r) gid r = true := by
  unfold getFlags setFlag
  simp

lemma getFlags_setSession (st : ServerState) (gid gid' : String) (s : GameSt) (r : Role) :
    getFlags (setSession st gid s) gid' r = getFlags st gid' r := rfl

/-! ## Reduction lemmas for the move endpoint -/

lemma move_endpoint_resolve (st : ServerState) (tok gid : String) (role : Role) (x y : Int)
    (htok : st.player_tokens tok = some (gid, role)) :
    move_endpoint st tok x y = move_endpoint_core st gid role x y := by
  unfold move_endpoint
  rw [htok]

lemma move_endpoint_core_oob (st : ServerState) (gid : String) (player : Role) (x y : Int)
    (hoob : y < 0 ∨ 5 ≤ y ∨ x < 0 ∨ 5 ≤ x) :
    move_endpoint_core st gid player x y =
      (ensureGame st gid, .errorMsg "Invalid coordinates", []) := by
  unfold move_endpoint_core
  rw [dif_pos hoob]

lemma move_endpoint_core_inbounds (st : ServerState) (gid : String) (player : Role)
    (xf yf : Fin 5) :
    move_endpoint_core st gid player xf.val yf.val =
      move_apply (ensureGame st gid) gid player xf yf := by
  unfold move_endpoint_core
  rw [dif_neg (show ¬((yf.val : Int) < 0 ∨ 5 ≤ (yf.val : Int) ∨
      (xf.val : Int) < 0 ∨ 5 ≤ (xf.val : Int)) from by
    have h1 := xf.isLt
    have h2 := yf.isLt
    omega)]
  rfl

lemma move_apply_opening (st1 : ServerState) (gid : String) (player : Role) (xf yf : Fin 5)
    (hfl : getFlags st1 gid player = false)
    (hempty : cellOwner ((getSession st1 gid).grid yf xf) = none) :
    move_apply st1 gid player xf yf =
      (setFlag (setSession st1 gid
          ⟨setCell (getSession st1 gid).grid yf xf (some (player, 1)), player.other⟩)
          gid player,
       .ok,
       [⟨setCell (getSession st1 gid).grid yf xf (some (player, 1)), player.other⟩]) := by
  unfold move_apply
  rw [hfl, if_pos rfl, hempty]

lemma move_apply_opening_occupied (st1 : ServerState) (gid : String) (player : Role)
    (xf yf : Fin 5) (r0 : Role)
    (hfl : getFlags st1 gid player = false)
    (howner : cellOwner ((getSession st1 gid).grid yf xf) = some r0) :
    move_apply st1 gid player xf yf = (st1, .errorMsg "Invalid initial move", []) := by
  unfold move_apply
  rw [hfl, if_pos rfl, howner]

lemma move_apply_not_yours (st1 : ServerState) (gid : String) (player : Role)
    (xf yf : Fin 5)
    (hfl : getFlags st1 gid player = true)
    (howner : cellOwner ((getSession st1 gid).grid yf xf) ≠ some player) :
    move_apply st1 gid player xf yf = (st1, .errorMsg "Not your cell", []) := by
  unfold move_apply
  rw [hfl, if_neg (by simp), if_pos howner]

lemma move_apply_increment (st1 : ServerState) (gid : String) (player : Role)
    (xf yf : Fin 5)
    (hfl : getFlags st1 gid player = true)
    (howner : cellOwner ((getSession st1 gid).grid yf xf) = some player) :
    move_apply st1 gid player xf yf =
      (setSession st1 gid
        ⟨(process_reactions (setCell (getSession st1 gid).grid yf xf
            (some (player, cellCount ((getSession st1 gid).grid yf xf) + 1))) player).1,
          player.other⟩,
       .ok,
       [⟨(process_reactions (setCell (getSession st1 gid).grid yf xf
            (some (player, cellCount ((getSession st1 gid).grid yf xf) + 1))) player).1,
          player.other⟩]) := by
  unfold move_apply
  rw [hfl, if_neg (by simp), if_neg (by rw [howner]; simp)]

lemma ensureGame_oneSession (g : Grid) (cur : Role) (fl : Role → Bool)
    (toks : String → Option (String × Role)) :
    ensureGame (oneSession g cur fl toks) "g" = oneSession g cur fl toks :=
  ensureGame_of_present _ _ ⟨g, cur⟩ fl (by simp [oneSession]) (by simp [oneSession])

lemma getSession_oneSession (g : Grid) (cur : Role) (fl : Role → Bool)
    (toks : String → Option (String × Role)) :
    getSession (oneSession g cur fl toks) "g" = ⟨g, cur⟩ := by
  unfold getSession oneSession
  simp

lemma getFlags_oneSession (g : Grid) (cur : Role) (fl : Role → Bool)
    (toks : String → Option (String × Role)) :
    getFlags (oneSession g cur fl toks) "g" = fl := by
  unfold getFlags oneSession
  simp

lemma setSession_oneSession (g : Grid) (cur : Role) (fl : Role → Bool)
    (toks : String → Option (String × Role)) (s' : GameSt) :
    setSession (oneSession g cur fl toks) "g" s' =
      oneSession s'.grid s'.current_player fl toks := by
  unfold setSession oneSession
  congr 1
  funext s
  by_cases hs : s = "g"
  · subst hs; simp
  · simp [hs]

lemma setFlag_oneSession (g : Grid) (cur : Role) (fl : Role → Bool)
    (toks : String → Option (String × Role)) (r : Role) :
    setFlag (oneSession g cur fl toks) "g" r =
      oneSession g cur (fun r' => if r' = r then true else fl r') toks := by
  unfold setFlag oneSession
  congr 1
  funext s
  by_cases hs : s = "g"
  · subst hs
    simp [getFlags]
  · simp [hs]

lemma move_oneSession_opening (g : Grid) (cur : Role) (fl : Role → Bool)
    (toks : String → Option (String × Role)) (tok : String) (role : Role) (xf yf : Fin 5)
    (htok : toks tok = some ("g", role)) (hfl : fl role = false)
    (hempty : cellOwner (g yf xf) = none) :
    move_endpoint (oneSession g cur fl toks) tok xf.val yf.val =
      (oneSession (setCell g yf xf (some (role, 1))) role.other
        (fun r' => if r' = role then true else fl r') toks,
       .ok, [⟨setCell g yf xf (some (role, 1)), role.other⟩]) := by
  rw [move_endpoint_resolve _ tok "g" role _ _ htok,
      move_endpoint_core_inbounds, ensureGame_oneSession,
      move_apply_opening _ _ _ _ _
        (by rw [getFlags_oneSession]; exact hfl)
        (by rw [getSession_oneSession]; exact hempty),
      getSession_oneSession, setSession_oneSession, setFlag_oneSession]

lemma move_oneSession_increment (g : Grid) (cur : Role) (fl : Role → Bool)
    (toks : String → Option (String × Role)) (tok : String) (role : Role) (xf yf : Fin 5)
    (htok : toks tok = some ("g", role)) (hfl : fl role = true)
    (howner : cellOwner (g yf xf) = some role) :
    move_endpoint (oneSession g cur fl toks) tok xf.val yf.val =
      (oneSession
         (process_reactions (setCell g yf xf (some (role, cellCount (g yf xf) + 1))) role).1
         role.other fl toks,
       .ok,
       [⟨(process_reactions (setCell g yf xf (some (role, cellCount (g yf xf) + 1))) role).1,
         role.other⟩]) := by
  rw [move_endpoint_resolve _ tok "g" role _ _ htok,
      move_endpoint_core_inbounds, ensureGame_oneSession,
      move_apply_increment _ _ _ _ _
        (by rw [getFlags_oneSession]; exact hfl)
        (by rw [getSession_oneSession]; exact howner),
      getSession_oneSession, setSession_oneSession]

/-! ## The claims -/

/-- C10: the outcome of reaction resolution is independent of the
triggering-role argument: the source writes each exploded cell's own
recorded owner to its neighbours and never reads the player parameter, so
any two roles produce identical results. -/
theorem C10_role_independent :
    ∀ (g : Grid) (r1 r2 : Role), process_reactions g r1 = process_reactions g r2 :=
  fun _ _ _ => rfl

/-- C4: the wave loop of reaction resolution is self-terminating on every
board: after finitely many waves a scan finds no cell with count >= 4, and
the fuel built into process_reactions always reaches that fixed point. -/
theorem C4_loop_terminates :
    (∀ g : Grid, ∃ n : Nat, scanExplode ((processLoop n g).1) = []) ∧
    (∀ (g : Grid) (r : Role), scanExplode ((process_reactions g r).1) = []) :=
  ⟨fun g => ⟨2 * phi g + 2, processLoop_reaches_terminal (phi g) g le_rfl⟩,
   process_reactions_terminal⟩

/-- C2 counterexample: a lone corner cell with count 4 explodes; the wave
takes the total count over owned cells from 4 down to 2, although there are
2 edges from the exploding cell to its in-bounds neighbours: the total

decreases, and it does not increase by the number of edges. -/
theorem C2_counterexample :
    scanExplode cornerGrid ≠ [] ∧
    edgeCount cornerGrid = 2 ∧
    mass cornerGrid = 4 ∧
    mass (runWave cornerGrid) = 2 ∧
    mass (runWave cornerGrid) < mass cornerGrid ∧
    mass (runWave cornerGrid) ≠ mass cornerGrid + edgeCount cornerGrid := by
  decide

/-- C2 (amended): across any single cascade wave the total count summed over
owned cells never increases; each explosion step adds exactly the number of
edges from the exploding cell to its in-bounds orthogonal neighbours while
removing that cell's current count (which is at least 4, hence at least the
number of edges). -/
theorem C2_amended_wave_mass :
    (∀ g : Grid, mass (runWave g) ≤ mass g) ∧
    (∀ (g : Grid) (e : Entry),
      mass (explodeOne g e) + cellCount (cellGet g (epos e)) =
        mass g + (get_neighbors e.1 e.2.1).length) :=
  ⟨mass_runWave_le, mass_explodeOne⟩

/-- C3 counterexample: two orthogonally adjacent cells collected in the same
wave do interact: the scan of the board collects both, processing them in
the two orders yields different post-wave boards, and the first-processed
exploding cell ends the wave occupied rather than empty. -/
theorem C3_counterexample :
    scanExplode adjacentPairGrid =
      [((0 : Fin 5), (0 : Fin 5), Role.RED), ((1 : Fin 5), (0 : Fin 5), Role.BLUE)] ∧
    List.Perm
      [((0 : Fin 5), (0 : Fin 5), Role.RED), ((1 : Fin 5), (0 : Fin 5), Role.BLUE)]
      [((1 : Fin 5), (0 : Fin 5), Role.BLUE), ((0 : Fin 5), (0 : Fin 5), Role.RED)] ∧
    explodeList adjacentPairGrid
        [((0 : Fin 5), (0 : Fin 5), Role.RED), ((1 : Fin 5), (0 : Fin 5), Role.BLUE)] ≠
      explodeList adjacentPairGrid
        [((1 : Fin 5), (0 : Fin 5), Role.BLUE), ((0 : Fin 5), (0 : Fin 5), Role.RED)] ∧
    cellGet (runWave adjacentPairGrid) ((0 : Fin 5), (0 : Fin 5)) ≠ none := by
  decide

/-- C3 (amended): when no two same-wave collected cells are orthogonally
adjacent and they all carry the same recorded owner, the processing order is
irrelevant - any permutation of the collected list yields the same
post-wave board - and under the non-adjacency condition every collected
cell ends the wave cleared to empty. -/
theorem C3_amended_order (g : Grid) (l : List Entry) (hpw : pairwiseNonAdj l) :
    (∀ (l' : List Entry) (o : Role), (∀ e ∈ l, e.2.2 = o) → l.Perm l' →
      explodeList g l = explodeList g l') ∧
    (∀ e ∈ l, cellGet (explodeList g l) (epos e) = none) :=
  ⟨fun l' o ho hperm => explodeList_perm_eq g l l' o hperm ho hpw,
   fun e he => explodeList_pos_none l g (epos e) hpw (List.mem_map_of_mem epos he)⟩

/-- C3 witness: a concrete instance of the amended statement, on two
non-adjacent same-owner cells of a concrete board: reordering leaves the
post-wave board unchanged and both collected cells end the wave empty. -/
theorem C3_amended_order_witness :
    pairwiseNonAdj
      [((0 : Fin 5), (0 : Fin 5), Role.RED), ((2 : Fin 5), (2 : Fin 5), Role.RED)] ∧
    (explodeList sharedNbrGrid
        [((0 : Fin 5), (0 : Fin 5), Role.RED), ((2 : Fin 5), (2 : Fin 5), Role.RED)] =
      explodeList sharedNbrGrid
        [((2 : Fin 5), (2 : Fin 5), Role.RED), ((0 : Fin 5), (0 : Fin 5), Role.RED)] ∧
     ∀ e ∈ [((0 : Fin 5), (0 : Fin 5), Role.RED), ((2 : Fin 5), (2 : Fin 5), Role.RED)],
       cellGet (explodeList sharedNbrGrid
         [((0 : Fin 5), (0 : Fin 5), Role.RED), ((2 : Fin 5), (2 : Fin 5), Role.RED)])
         (epos e) = none) :=
  ⟨by decide,
   (C3_amended_order sharedNbrGrid
       [((0 : Fin 5), (0 : Fin 5), Role.RED), ((2 : Fin 5), (2 : Fin 5), Role.RED)]
       (by decide)).1
     [((2 : Fin 5), (2 : Fin 5), Role.RED), ((0 : Fin 5), (0 : Fin 5), Role.RED)]
     Role.RED (by decide) (by decide),
   (C3_amended_order sharedNbrGrid
       [((0 : Fin 5), (0 : Fin 5), Role.RED), ((2 : Fin 5), (2 : Fin 5), Role.RED)]
       (by decide)).2⟩

/-- C6 counterexample: with cells (1,2) and (3,2) both collected in one wave
and both adjacent to (2,2), the count of (2,2) goes from 1 to 3 within a
single wave - a change of +2, which is neither an increment by exactly 1
nor a reset to 0. -/
theorem C6_counterexample :
    cellCount (cellGet sharedNbrGrid ((2 : Fin 5), (2 : Fin 5))) = 1 ∧
    cellCount (cellGet (runWave sharedNbrGrid) ((2 : Fin 5), (2 : Fin 5))) = 3 := by
  decide

/-- C6 (amended): counts stay non-negative and are governed by unit
increments and resets: an applied move adds exactly 1 to its target cell and
touches no other cell; within one cascade wave a cell that is not collected
gains exactly one increment per collected cell adjacent to it (possibly more
than one in total), and a collected cell is reset to 0 and then gains one
increment per adjacent collected cell processed after it in scan order. -/
theorem C6_amended_unit_changes :
    (∀ (g : Grid) (p : Pos), p ∉ (scanExplode g).map epos →
        cellCount (cellGet (runWave g) p) =
          cellCount (cellGet g p) + adjCount p (scanExplode g)) ∧
    (∀ (g : Grid) (p : Pos), p ∈ (scanExplode g).map epos →
        cellCount (cellGet (runWave g) p) = adjCount p (afterEntry p (scanExplode g))) ∧
    (∀ (g : Grid) (y x : Fin 5) (r : Role),
        cellCount (cellGet (setCell g y x (some (r, cellCount (g y x) + 1))) (x, y)) =
          cellCount (cellGet g (x, y)) + 1 ∧
        ∀ q : Pos, q ≠ (x, y) →
          cellGet (setCell g y x (some (r, cellCount (g y x) + 1))) q = cellGet g q) := by
  refine ⟨?_, ?_, ?_⟩
  · intro g p hp
    have h := explodeList_cellCount (scanExplode g) g p (scanExplode_nodup_epos g)
    rw [if_neg hp] at h
    exact h
  · intro g p hp
    have h := explodeList_cellCount (scanExplode g) g p (scanExplode_nodup_epos g)
    rw [if_pos hp] at h
    exact h
  · intro g y x r
    refine ⟨?_, ?_⟩
    · rw [cellGet_setCell, if_pos rfl]
      rfl
    · intro q hq
      rw [cellGet_setCell, if_neg hq]

/-- C6 witness: the non-collected cell (2,2) of the concrete board gains
exactly one increment per adjacent collected cell. -/
theorem C6_amended_unit_changes_witness :
    ((2 : Fin 5), (2 : Fin 5)) ∉ (scanExplode sharedNbrGrid).map epos ∧
    cellCount (cellGet (runWave sharedNbrGrid) ((2 : Fin 5), (2 : Fin 5))) =
      cellCount (cellGet sharedNbrGrid ((2 : Fin 5), (2 : Fin 5))) +
        adjCount ((2 : Fin 5), (2 : Fin 5)) (scanExplode sharedNbrGrid) :=
  ⟨by decide, C6_amended_unit_changes.1 sharedNbrGrid ((2 : Fin 5), (2 : Fin 5)) (by decide)⟩

/-- C8: the scenario: on a fresh session RED opens at (2,2), then RED
increments (2,2) three more times; the fourth move takes the count to 4 and
triggers exactly one wave, after which (2,2) is empty and each of
(1,2),(3,2),(2,1),(2,3) holds {owner: RED, count: prior + 1} (priors were
0); resolution is then terminal: a further call changes nothing and
produces no wave. -/
theorem C8_center_cascade :
    move_endpoint (oneSession E0 Role.RED allFalse demoTokens) "t" 2 2 =
      (oneSession E1 Role.BLUE flagsRED demoTokens, .ok, [⟨E1, Role.BLUE⟩]) ∧
    move_endpoint (oneSession E1 Role.BLUE flagsRED demoTokens) "t" 2 2 =
      (oneSession E2 Role.BLUE flagsRED demoTokens, .ok, [⟨E2, Role.BLUE⟩]) ∧
    move_endpoint (oneSession E2 Role.BLUE flagsRED demoTokens) "t" 2 2 =
      (oneSession E3 Role.BLUE flagsRED demoTokens, .ok, [⟨E3, Role.BLUE⟩]) ∧
    move_endpoint (oneSession E3 Role.BLUE flagsRED demoTokens) "t" 2 2 =
      (oneSession E4 Role.BLUE flagsRED demoTokens, .ok, [⟨E4, Role.BLUE⟩]) ∧
    cellCount (cellGet E3 ((2 : Fin 5), (2 : Fin 5))) + 1 = 4 ∧
    (process_reactions (setCell E3 2 2 (some (Role.RED, cellCount (E3 2 2) + 1)))
        Role.RED).2 = 1 ∧
    cellGet E4 ((2 : Fin 5), (2 : Fin 5)) = none ∧
    cellGet E4 ((1 : Fin 5), (2 : Fin 5)) = some (Role.RED, 1) ∧
    cellGet E4 ((3 : Fin 5), (2 : Fin 5)) = some (Role.RED, 1) ∧
    cellGet E4 ((2 : Fin 5), (1 : Fin 5)) = some (Role.RED, 1) ∧
    cellGet E4 ((2 : Fin 5), (3 : Fin 5)) = some (Role.RED, 1) ∧
    process_reactions E4 Role.RED = (E4, 0) := by
  refine ⟨?_, ?_, ?_, ?_, by decide, by decide, by decide, by decide, by decide,
    by decide, by decide, by decide⟩
  · have h := move_oneSession_opening E0 Role.RED allFalse demoTokens "t" Role.RED 2 2
      (by decide) (by decide) (by decide)
    rw [show setCell E0 2 2 (some (Role.RED, 1)) = E1 from by decide,
        show (fun r' => if r' = Role.RED then true else allFalse r') = flagsRED from by
          decide] at h
    exact h
  · have h := move_oneSession_increment E1 Role.BLUE flagsRED demoTokens "t" Role.RED 2 2
      (by decide) (by decide) (by decide)
    rw [show (process_reactions (setCell E1 2 2 (some (Role.RED, cellCount (E1 2 2) + 1)))
        Role.RED).1 = E2 from by decide] at h
    exact h
  · have h := move_oneSession_increment E2 Role.BLUE flagsRED demoTokens "t" Role.RED 2 2
      (by decide) (by decide) (by decide)
    rw [show (process_reactions (setCell E2 2 2 (some (Role.RED, cellCount (E2 2 2) + 1)))
        Role.RED).1 = E3 from by decide] at h
    exact h
  · have h := move_oneSession_increment E3 Role.BLUE flagsRED demoTokens "t" Role.RED 2 2
      (by decide) (by decide) (by decide)
    rw [show (process_reactions (setCell E3 2 2 (some (Role.RED, cellCount (E3 2 2) + 1)))
        Role.RED).1 = E4 from by decide] at h
    exact h

/-- C1: the code behaviour at an accepted move that triggers a cascade: the
cascade runs exactly one wave, yet exactly one snapshot is broadcast - the
final post-move state with current_player already flipped - so no per-wave
snapshot reaches the subscribers (process_reactions contains no broadcast
call, despite pausing 50ms per wave). -/
theorem C1_single_broadcast :
    (process_reactions (setCell E3 2 2 (some (Role.RED, cellCount (E3 2 2) + 1)))
        Role.RED).2 = 1 ∧
    (move_endpoint (oneSession E3 Role.BLUE flagsRED demoTokens) "t" 2 2).2.1 =
      MoveResult.ok ∧
    (move_endpoint (oneSession E3 Role.BLUE flagsRED demoTokens) "t" 2 2).2.2 =
      [⟨E4, Role.BLUE⟩] := by
  decide

/-- C5 counterexample: two consecutive accepted moves by the same player:
RED opens at (2,2), then RED (owning the cell, with no turn check)
increments it; currentPlayer is BLUE after both accepted moves, so it
neither flips on the second move nor strictly alternates. -/
theorem C5_counterexample :
    (move_endpoint (oneSession E0 Role.RED allFalse demoTokens) "t" 2 2).2.1 =
      MoveResult.ok ∧
    (getSession (move_endpoint (oneSession E0 Role.RED allFalse demoTokens) "t" 2 2).1
      "g").current_player = Role.BLUE ∧
    (move_endpoint
        ((move_endpoint (oneSession E0 Role.RED allFalse demoTokens) "t" 2 2).1)
        "t" 2 2).2.1 = MoveResult.ok ∧
    (getSession
        (move_endpoint
          ((move_endpoint (oneSession E0 Role.RED allFalse demoTokens) "t" 2 2).1)
          "t" 2 2).1 "g").current_player = Role.BLUE := by
  decide

/-- C5 (amended): every accepted move (opening or subsequent) sets
currentPlayer to the role opposite the caller's role - not necessarily a
flip of its previous value, so it strictly alternates only while the moving
roles themselves alternate. -/
theorem C5_amended_set_opponent (st : ServerState) (tok gid : String) (role : Role)
    (x y : Int) (htok : st.player_tokens tok = some (gid, role))
    (hok : (move_endpoint st tok x y).2.1 = MoveResult.ok) :
    (getSession (move_endpoint st tok x y).1 gid).current_player = role.other := by
  rw [move_endpoint_resolve st tok gid role x y htok] at hok ⊢
  by_cases hb : y < 0 ∨ 5 ≤ y ∨ x < 0 ∨ 5 ≤ x
  · rw [move_endpoint_core_oob st gid role x y hb] at hok
    exact MoveResult.noConfusion hok
  · have hxlt : x.toNat < 5 := by omega
    have hylt : y.toNat < 5 := by omega
    have hx : x = (((⟨x.toNat, hxlt⟩ : Fin 5)).val : Int) := by
      show x = (x.toNat : Int)
      omega
    have hy : y = (((⟨y.toNat, hylt⟩ : Fin 5)).val : Int) := by
      show y = (y.toNat : Int)
      omega
    rw [hx, hy, move_endpoint_core_inbounds] at hok ⊢
    by_cases hfl : getFlags (ensureGame st gid) gid role = false
    · rcases howner : cellOwner ((getSession (ensureGame st gid) gid).grid
          ⟨y.toNat, hylt⟩ ⟨x.toNat, hxlt⟩) with _ | r0
      · rw [move_apply_opening _ _ _ _ _ hfl howner]
        rw [getSession_setFlag, getSession_setSession_self]
      · rw [move_apply_opening_occupied _ _ _ _ _ r0 hfl howner] at hok
        exact MoveResult.noConfusion hok
    · have hfl' : getFlags (ensureGame st gid) gid role = true := by
        rcases Bool.eq_false_or_eq_true (getFlags (ensureGame st gid) gid role) with h | h
        · exact h
        · exact absurd h hfl
      by_cases howner : cellOwner ((getSession (ensureGame st gid) gid).grid
          ⟨y.toNat, hylt⟩ ⟨x.toNat, hxlt⟩) = some role
      · rw [move_apply_increment _ _ _ _ _ hfl' howner]
        rw [getSession_setSession_self]
      · rw [move_apply_not_yours _ _ _ _ _ hfl' howner] at hok
        exact MoveResult.noConfusion hok

/-- C5 witness: the amended statement at RED's accepted opening move on a
fresh session. -/
theorem C5_amended_set_opponent_witness :
    (oneSession E0 Role.RED allFalse demoTokens).player_tokens "t" =
      some ("g", Role.RED) ∧
    (move_endpoint (oneSession E0 Role.RED allFalse demoTokens) "t" 2 2).2.1 =
      MoveResult.ok ∧
    (getSession (move_endpoint (oneSession E0 Role.RED allFalse demoTokens) "t" 2 2).1
      "g").current_player = Role.RED.other :=
  ⟨by decide, by decide,
   C5_amended_set_opponent (oneSession E0 Role.RED allFalse demoTokens) "t" "g"
     Role.RED 2 2 (by decide) (by decide)⟩

/-- C7 counterexample: on a fresh session (currentPlayer RED), BLUE's
accepted opening move leaves currentPlayer RED: currentPlayer is set to the
mover's opposite, which here is no flip at all. -/
theorem C7_counterexample :
    (getSession (oneSession E0 Role.RED allFalse blueTokens) "g").current_player =
      Role.RED ∧
    (move_endpoint (oneSession E0 Role.RED allFalse blueTokens) "b" 0 0).2.1 =
      MoveResult.ok ∧
    (getSession (move_endpoint (oneSession E0 Role.RED allFalse blueTokens) "b" 0 0).1
      "g").current_player = Role.RED := by
  decide

/-- C7 (amended): if the caller's role has not completed its opening move,
an accepted in-bounds move on a cell with no owner writes {owner: role,
count: 1} to exactly that cell, marks the role's opening flag, sets
currentPlayer to the role opposite the caller, publishes exactly the one new
state, and runs no reaction resolution (the rest of the grid is untouched);
if the cell is already owned the move fails with the invalid-move error
payload, changes nothing beyond session creation, and publishes nothing. -/
theorem C7_amended_opening (st : ServerState) (tok gid : String) (role : Role)
    (xf yf : Fin 5)
    (htok : st.player_tokens tok = some (gid, role))
    (hfl : getFlags (ensureGame st gid) gid role = false) :
    (cellOwner ((getSession (ensureGame st gid) gid).grid yf xf) = none →
      (move_endpoint st tok xf.val yf.val).2.1 = MoveResult.ok ∧
      (getSession (move_endpoint st tok xf.val yf.val).1 gid).grid =
        setCell (getSession (ensureGame st gid) gid).grid yf xf (some (role, 1)) ∧
      getFlags (move_endpoint st tok xf.val yf.val).1 gid role = true ∧
      (getSession (move_endpoint st tok xf.val yf.val).1 gid).current_player =
        role.other ∧
      (move_endpoint st tok xf.val yf.val).2.2 =
        [⟨setCell (getSession (ensureGame st gid) gid).grid yf xf (some (role, 1)),
          role.other⟩]) ∧
    (∀ r0 : Role,
      cellOwner ((getSession (ensureGame st gid) gid).grid yf xf) = some r0 →
      (move_endpoint st tok xf.val yf.val).2.1 =
        MoveResult.errorMsg "Invalid initial move" ∧
      (move_endpoint st tok xf.val yf.val).1 = ensureGame st gid ∧
      (move_endpoint st tok xf.val yf.val).2.2 = []) := by
  have hres : move_endpoint st tok xf.val yf.val =
      move_apply (ensureGame st gid) gid role xf yf := by
    rw [move_endpoint_resolve st tok gid role _ _ htok, move_endpoint_core_inbounds]
  constructor
  · intro hempty
    rw [hres, move_apply_opening _ _ _ _ _ hfl hempty]
    refine ⟨rfl, ?_, ?_, ?_, rfl⟩
    · rw [getSession_setFlag, getSession_setSession_self]
    · rw [getFlags_setFlag_self]
    · rw [getSession_setFlag, getSession_setSession_self]
  · intro r0 howner
    rw [hres, move_apply_opening_occupied _ _ _ _ _ r0 hfl howner]
    exact ⟨rfl, rfl, rfl⟩

/-- C7 witness: the amended statement at BLUE's opening move at (0,0) on a
fresh session. -/
theorem C7_amended_opening_witness :
    (oneSession E0 Role.RED allFalse blueTokens).player_tokens "b" =
      some ("g", Role.BLUE) ∧
    getFlags (ensureGame (oneSession E0 Role.RED allFalse blueTokens) "g") "g"
      Role.BLUE = false ∧
    cellOwner ((getSession (ensureGame (oneSession E0 Role.RED allFalse blueTokens) "g")
      "g").grid (0 : Fin 5) (0 : Fin 5)) = none ∧
    ((move_endpoint (oneSession E0 Role.RED allFalse blueTokens) "b"
        ((0 : Fin 5)).val ((0 : Fin 5)).val).2.1 = MoveResult.ok ∧
      (getSession (move_endpoint (oneSession E0 Role.RED allFalse blueTokens) "b"
        ((0 : Fin 5)).val ((0 : Fin 5)).val).1 "g").grid =
        setCell (getSession (ensureGame (oneSession E0 Role.RED allFalse blueTokens) "g")
          "g").grid (0 : Fin 5) (0 : Fin 5) (some (Role.BLUE, 1)) ∧
      getFlags (move_endpoint (oneSession E0 Role.RED allFalse blueTokens) "b"
        ((0 : Fin 5)).val ((0 : Fin 5)).val).1 "g" Role.BLUE = true ∧
      (getSession (move_endpoint (oneSession E0 Role.RED allFalse blueTokens) "b"
        ((0 : Fin 5)).val ((0 : Fin 5)).val).1 "g").current_player = Role.BLUE.other ∧
      (move_endpoint (oneSession E0 Role.RED allFalse blueTokens) "b"
        ((0 : Fin 5)).val ((0 : Fin 5)).val).2.2 =
        [⟨setCell (getSession (ensureGame (oneSession E0 Role.RED allFalse blueTokens)
            "g") "g").grid (0 : Fin 5) (0 : Fin 5) (some (Role.BLUE, 1)),
          Role.BLUE.other⟩]) :=
  ⟨by decide, by decide, by decide,
   (C7_amended_opening (oneSession E0 Role.RED allFalse blueTokens) "b" "g" Role.BLUE
     (0 : Fin 5) (0 : Fin 5) (by decide) (by decide)).1 (by decide)⟩

/-- C9: a move with a resolvable token whose session is initialised and
whose coordinates lie outside the 5x5 board returns exactly the
out-of-bounds error payload, leaves the whole server state (every session's
board, currentPlayer and opening flags) exactly as it was, and broadcasts
nothing. -/
theorem C9_oob_frame (st : ServerState) (tok gid : String) (role : Role)
    (s : GameSt) (f : Role → Bool) (x y : Int)
    (htok : st.player_tokens tok = some (gid, role))
    (hs : st.games gid = some s) (hf : st.initial_moves_done gid = some f)
    (hoob : y < 0 ∨ 5 ≤ y ∨ x < 0 ∨ 5 ≤ x) :
    move_endpoint st tok x y = (st, MoveResult.errorMsg "Invalid coordinates", []) := by
  rw [move_endpoint_resolve st tok gid role x y htok,
      move_endpoint_core_oob st gid role x y hoob,
      ensureGame_of_present st gid s f hs hf]

/-- C9 witness: the move at (5,0) with a valid token on an initialised
session. -/
theorem C9_oob_frame_witness :
    (oneSession E1 Role.BLUE flagsRED demoTokens).player_tokens "t" =
      some ("g", Role.RED) ∧
    (oneSession E1 Role.BLUE flagsRED demoTokens).games "g" =
      some ⟨E1, Role.BLUE⟩ ∧
    (oneSession E1 Role.BLUE flagsRED demoTokens).initial_moves_done "g" =
      some flagsRED ∧
    ((0 : Int) < 0 ∨ 5 ≤ (0 : Int) ∨ (5 : Int) < 0 ∨ 5 ≤ (5 : Int)) ∧
    move_endpoint (oneSession E1 Role.BLUE flagsRED demoTokens) "t" 5 0 =
      (oneSession E1 Role.BLUE flagsRED demoTokens,
        MoveResult.errorMsg "Invalid coordinates", []) :=
  ⟨by decide, by decide, by decide, by decide,
   C9_oob_frame (oneSession E1 Role.BLUE flagsRED demoTokens) "t" "g" Role.RED
     ⟨E1, Role.BLUE⟩ flagsRED 5 0 (by decide) (by decide) (by decide) (by decide)⟩
